import Mathlib

/-!
Verification of the ia-collection-grabber core: a shallow embedding of the
RateGate (src/ia_client.py), the file Selector (src/file_selector.py,
src/config.py), the per-item worker (src/worker.py, src/downloader.py) and
the fixed-concurrency scheduler (src/scheduler.py), together with theorems
settling the specification claims about them.
-/

namespace IACG

/-! ## RateGate (src/ia_client.py, class RateGate)

`_until` is a wall-clock timestamp; `backoff(seconds)` runs under the
mutual-exclusion lock, so a whole trace of backoff calls is a sequence of
atomic updates.  Each request is modelled as a pair `(now, seconds)`: the
value of `time.time()` observed by that call and its `seconds` argument.
Timestamps are rationals (the source uses real-valued wall-clock time). -/

/-- One `RateGate.backoff(seconds)` call: `self._until = max(self._until, time.time() + seconds)`
(src/ia_client.py line 83). -/
def backoffStep (u : ℚ) (req : ℚ × ℚ) : ℚ :=
  max u (req.1 + req.2)

/-- The deadline after a sequence of `backoff` calls, starting from deadline `init`
(`self._until = 0.0` at construction). -/
def rateGateRun (init : ℚ) (reqs : List (ℚ × ℚ)) : ℚ :=
  reqs.foldl backoffStep init

/-! ## Selector (src/file_selector.py, src/config.py) -/

/-- `VIDEO_EXTS` from src/config.py (a Python set; only membership is used). -/
def VIDEO_EXTS : List String :=
  [".mp4", ".mkv", ".mov", ".avi", ".wmv", ".mpg", ".mpeg",
   ".m4v", ".ts", ".flv", ".3gp", ".divx", ".webm"]

/-- `AUDIO_PREFS` from src/config.py: ranked audio preference list, order matters. -/
def AUDIO_PREFS : List String :=
  [".wav", ".flac", ".mp3", ".ogg"]

/-- `AUDIO_EXTS` from src/config.py: all recognized audio extensions. -/
def AUDIO_EXTS : List String :=
  AUDIO_PREFS ++ [".aiff", ".aac", ".m4a", ".wma", ".oga"]

/-- The denylist of non-media extensions skipped in `pick_best_file`
(src/file_selector.py line 77). -/
def DENY_EXTS : List String :=
  [".txt", ".xml", ".json", ".gz", ".zip", ".sha1", ".md5", ".srt", ".vtt", ".nfo"]

/-! String helpers.  The Lean core implementations of `endsWith`, `toLower`,
`splitOn`, `toInt?` and substring search iterate over byte positions and do
not reduce inside the kernel, so the operations the source uses are
re-implemented here over `String.toList`/`String.mk`, which evaluate by
`decide`/`rfl`. -/

/-- Python `s.endswith(pat)`. -/
def strEndsWith (s pat : String) : Bool :=
  pat.toList.isSuffixOf s.toList

/-- `str.lower()` on one character (ASCII range; the extensions and throttling
markers compared in the source are all ASCII). -/
def lowerChar (c : Char) : Char :=
  if 'A' ≤ c ∧ c ≤ 'Z' then Char.ofNat (c.toNat + 32) else c

/-- Python `s.lower()`. -/
def strToLower (s : String) : String :=
  String.mk (s.toList.map lowerChar)

/-- `pat` occurs as a contiguous sublist of the second argument. -/
def listInfix : List Char → List Char → Bool
  | pat, [] => pat.isEmpty
  | pat, c :: rest => pat.isPrefixOf (c :: rest) || listInfix pat rest

/-- Python `pat in s` (substring containment). -/
def strContains (s pat : String) : Bool :=
  listInfix pat.toList s.toList

/-- Python `s[:n]` (truncation by code points). -/
def strTake (s : String) (n : Nat) : String :=
  String.mk (s.toList.take n)

/-- The characters after the last `/` (the final path component used by
`Path(name).suffix`). -/
def afterLastSlash (cs : List Char) : List Char :=
  cs.foldl (fun acc c => if c = '/' then [] else acc ++ [c]) []

/-- Numeric value of a decimal digit character, or `none`. -/
def digitVal (c : Char) : Option Nat :=
  if '0' ≤ c ∧ c ≤ '9' then some (c.toNat - 48) else none

/-- Value of a non-empty all-digit character list, or `none`. -/
def digitsOf (cs : List Char) : Option Nat :=
  if cs.isEmpty then none
  else cs.foldl (fun acc c => acc.bind (fun n => (digitVal c).map (n * 10 + ·))) (some 0)

/-- Python `int(s)` on a string: optional sign followed by decimal digits
(surrounding whitespace, underscores and non-decimal bases are not modelled;
IA metadata sizes are plain digit strings). -/
def parseIntPy (s : String) : Option Int :=
  match s.toList with
  | '-' :: rest => (digitsOf rest).map (fun n => -(n : Int))
  | '+' :: rest => (digitsOf rest).map (fun n => (n : Int))
  | cs => (digitsOf cs).map (fun n => (n : Int))

/-- One raw entry of the metadata `files` list, as consumed by `pick_best_file`:
`f.get("name")`, `f.get("size")` (sizes arrive as strings in IA metadata) and
`f.get("format")`, each possibly absent. -/
structure RawFile where
  name : Option String
  size : Option String
  format : Option String
deriving DecidableEq, Repr

/-- `_size_int` from src/utils.py: `int(x)` with every failure mapped to `None`. -/
def sizeInt (x : Option String) : Option Int :=
  x.bind parseIntPy

/-- Index of the last `.` in a character list (`str.rfind('.')`), or `none`. -/
def lastDotIdx (cs : List Char) : Option Nat :=
  (List.range cs.length).foldl
    (fun acc i => if cs.getD i ' ' = '.' then some i else acc) none

/-- `Path(name).suffix`: CPython returns `name[i:]` of the final path component
when `i = rfind('.')` satisfies `0 < i < len - 1`, else the empty string. -/
def pathSuffix (name : String) : String :=
  let base := afterLastSlash name.toList
  match lastDotIdx base with
  | some i => if 0 < i ∧ i + 1 < base.length then String.mk (base.drop i) else ""
  | none => ""

/-- A candidate file after filtering (the dict built at src/file_selector.py line 84). -/
structure Cand where
  name : String
  ext : String
  size : Option Int
  format : Option String
deriving DecidableEq, Repr

/-- The candidate-building loop of `pick_best_file` (src/file_selector.py lines 62-89):
skip entries with falsy name or a trailing slash, skip denylisted extensions,
convert the size. -/
def candsOf (files : List RawFile) : List Cand :=
  files.filterMap (fun f =>
    let name := f.name.getD ""
    if name = "" ∨ strEndsWith name "/" then none
    else
      let ext := strToLower (pathSuffix name)
      if ext ∈ DENY_EXTS then none
      else some ⟨name, ext, sizeInt f.size, f.format⟩)

/-- The sort key `lambda c: c["size"] or 0` (an absent size compares as 0). -/
def sizeKey (c : Cand) : Int :=
  c.size.getD 0

/-- Python's `max(xs, key=...)`: the first element attaining the maximal key
(later elements replace the current best only when strictly greater). -/
def pyMaxBy (key : Cand → Int) : List Cand → Option Cand
  | [] => none
  | x :: xs => some (xs.foldl (fun b a => if key b < key a then a else b) x)

/-- The `for ext in AUDIO_PREFS` scan of `pick_best_file`
(src/file_selector.py lines 118-127): return the largest candidate of the
first preferred extension with a non-empty subset, else the largest overall. -/
def audioScan (audios : List Cand) : List String → Option Cand
  | [] => pyMaxBy sizeKey audios
  | e :: rest =>
    let subset := audios.filter (fun a => a.ext = e)
    if subset.isEmpty then audioScan audios rest
    else pyMaxBy sizeKey subset

/-- `pick_best_file(files, media_mode)` from src/file_selector.py. -/
def pick_best_file (files : List RawFile) (media_mode : String) :
    Option Cand × Option String :=
  let cands := candsOf files
  if cands.isEmpty then (none, some "no_candidate_files")
  else
    let videos := cands.filter (fun c => c.ext ∈ VIDEO_EXTS)
    let audios := cands.filter (fun c => c.ext ∈ AUDIO_EXTS)
    if media_mode = "video" then
      if videos.isEmpty then (none, some "filtered_out_no_video")
      else (pyMaxBy sizeKey videos, none)
    else if media_mode = "audio" then
      if audios.isEmpty then (none, some "filtered_out_no_audio")
      else (audioScan audios AUDIO_PREFS, none)
    else
      if !videos.isEmpty then (pyMaxBy sizeKey videos, none)
      else if !audios.isEmpty then (audioScan audios AUDIO_PREFS, none)
      else (none, some "no_video_or_audio")

/-- Spec-side restatement of the audio rule, written from the spec's words
(§4.2: "scan the audio preference list in its fixed priority order; for the
first preferred extension that has ≥1 matching candidate, return the largest
candidate of that extension ... If no candidate matches any preferred
extension, fall back to the largest audio candidate overall"), to be compared
with the code-side `audioScan`. -/
def audioChoiceFromSpec (audios : List Cand) : Option Cand :=
  match AUDIO_PREFS.find? (fun e => audios.any (fun a => a.ext = e)) with
  | some e => pyMaxBy sizeKey (audios.filter (fun a => a.ext = e))
  | none => pyMaxBy sizeKey audios

/-! ## Local-copy check (src/file_selector.py, local_already_ok) -/

/-- Result of `target.stat().st_size`: the size, or a raised OS error. -/
inductive StatRes where
  | ok (size : Int)
  | err
deriving DecidableEq, Repr

/-- The observable state of the destination path `dest_dir / filename`:
whether `target.exists()` and what `target.stat()` yields. -/
structure LocalFile where
  present : Bool
  stat : StatRes
deriving DecidableEq, Repr

/-- `local_already_ok(dest_dir, filename, expected_size)` from src/file_selector.py,
with the filesystem state of the single path it inspects abstracted as `target`. -/
def local_already_ok (target : LocalFile) (expected_size : Option Int) : Bool :=
  if !target.present then false
  else
    match expected_size with
    | none => false
    | some sz =>
      match target.stat with
      | .ok actual => actual == sz
      | .err => false

/-! ## Downloader error classification (src/downloader.py) -/

/-- `rate_limited_errtext(s)` from src/downloader.py: suggested backoff seconds
when the aria2 error text shows throttling markers, else `None`. -/
def rate_limited_errtext (s : String) : Option Int :=
  let text := strToLower s
  if strContains text "429" || strContains text "too many requests" then some 90
  else if strContains text "503" || strContains text "slowdown"
       || strContains text "service temporarily unavailable" then some 90
  else none

/-! ## URL helpers (src/utils.py) -/

/-- `item_page_url(identifier)` from src/utils.py. -/
def item_page_url (identifier : String) : String :=
  "https://archive.org/details/" ++ identifier

/-- `file_download_url(identifier, filename)` from src/utils.py. -/
def file_download_url (identifier filename : String) : String :=
  "https://archive.org/download/" ++ identifier ++ "/" ++ filename

/-! ## ItemProcessor (src/worker.py, process_identifier)

The collaborators (`asyncio.sleep` jitter, `RATE_GATE.wait_if_needed`,
`ia_metadata`, `aria2_download`) are modelled by an environment recording the
outcome each call would produce; the control flow, logging, and event order of
`process_identifier` are translated from the source.  Externally-visible
actions are recorded in an event trace. -/

/-- A raised Python exception, by type name and message. -/
structure Exn where
  name : String
  msg : String
deriving DecidableEq, Repr

/-- Trace events: a `RATE_GATE.wait_if_needed()` call, the metadata HTTP fetch,
a `RATE_GATE.backoff(...)` call, and the `aria2_download` invocation. -/
inductive Ev where
  | gateWait
  | metaFetch
  | backoff
  | xferCall
deriving DecidableEq, Repr

/-- Outcome of one `await ia_metadata(identifier)` call (src/ia_client.py):
a parsed metadata dict (its `files` list), a raised `urllib.error.HTTPError`
with status code and optional Retry-After hint, or any other raised exception
(which covers the CLI-fallback failure paths inside `ia_metadata`). -/
inductive MetaRes where
  | ok (files : List RawFile)
  | raiseHttp (code : Nat) (retryAfter : Option Int)
  | raiseExn (e : Exn)
deriving DecidableEq, Repr

/-- Outcome of one `await aria2_download(url, dest_dir, x, s)` call:
the returned `(ok, err)` pair, or a raised exception. -/
inductive XferRes where
  | ret (ok : Bool) (err : String)
  | raiseExn (e : Exn)
deriving DecidableEq, Repr

/-- Environment for one iteration of the `for attempt in (1, 2)` loop. -/
structure AttemptEnv where
  gateExn : Option Exn
  meta : MetaRes
  localF : LocalFile
  xfer : XferRes
deriving DecidableEq, Repr

/-- Environment for one `process_identifier` run: whether the jitter sleep
raises, and the collaborator outcomes of each of the two possible attempts. -/
structure Env where
  jitterExn : Option Exn
  att1 : AttemptEnv
  att2 : AttemptEnv
deriving DecidableEq, Repr

/-- Which `return` of `process_identifier` produced the terminal result. -/
inductive Terminal where
  | noFiles
  | selFail
  | localSkip
  | okDone
  | xferFail
  | httpFail
  | exnFail
  | fallthrough
deriving DecidableEq, Repr

/-- A CSV row handed to `log_writer.writerow`:
`[identifier, action, reason, item_url, file_url]`. -/
abbrev LogRow := List String

/-- Python `reason or default` on an optional string (`None` and `""` are falsy). -/
def pyOr (s : Option String) (default : String) : String :=
  match s with
  | none => default
  | some r => if r = "" then default else r

/-- The events of one `ia_metadata` call: it calls `wait_if_needed` itself
(src/ia_client.py line 207), performs the fetch, and on a 429/503 HTTPError
calls `RATE_GATE.backoff` before re-raising (lines 239-248). -/
def iaMetadataEvs (m : MetaRes) : List Ev :=
  match m with
  | .raiseHttp code _ =>
    if code = 429 ∨ code = 503 then [.gateWait, .metaFetch, .backoff]
    else [.gateWait, .metaFetch]
  | _ => [.gateWait, .metaFetch]

/-- Outcome of one iteration of the attempt loop: a terminal `return`
(status, bytes, the log row written if any, which return fired, events), or a
`continue` to the next attempt. -/
inductive AttemptRes where
  | finish (status : String) (bytes : Int) (row : Option LogRow)
      (term : Terminal) (evs : List Ev)
  | again (evs : List Ev)
deriving DecidableEq, Repr

/-- Events of an attempt outcome. -/
def attEvs : AttemptRes → List Ev
  | .finish _ _ _ _ evs => evs
  | .again evs => evs

/-- One iteration of the `for attempt in (1, 2)` loop of `process_identifier`
(src/worker.py lines 91-198): gate wait, metadata fetch, empty-files check,
selection, local-copy check, transfer, throttling retry, and the two `except`
handlers. -/
def attemptStep (identifier media_mode : String) (att : AttemptEnv)
    (attempt : Nat) : AttemptRes :=
  let page := item_page_url identifier
  match att.gateExn with
  | some e =>
    .finish "fail" 0
      (some [identifier, "FAIL", "exception: " ++ e.name ++ ": " ++ strTake e.msg 500, page, ""])
      .exnFail [.gateWait]
  | none =>
    let evs0 := Ev.gateWait :: iaMetadataEvs att.meta
    match att.meta with
    | .raiseHttp code _ =>
      if (code = 429 ∨ code = 503) ∧ attempt = 1 then .again (evs0 ++ [.backoff])
      else
        .finish "fail" 0
          (some [identifier, "FAIL", "metadata_http_" ++ toString code, page, ""])
          .httpFail evs0
    | .raiseExn e =>
      .finish "fail" 0
        (some [identifier, "FAIL", "exception: " ++ e.name ++ ": " ++ strTake e.msg 500, page, ""])
        .exnFail evs0
    | .ok files =>
      if files.isEmpty then
        .finish "skip" 0
          (some [identifier, "SKIP", "no_files_in_metadata", page, ""]) .noFiles evs0
      else
        match pick_best_file files media_mode with
        | (none, reason) =>
          .finish "skip" 0
            (some [identifier, "SKIP", pyOr reason "selection_failed", page, ""])
            .selFail evs0
        | (some best, _) =>
          let url := file_download_url identifier best.name
          if local_already_ok att.localF best.size then
            .finish "skip" 0 none .localSkip evs0
          else
            let evs1 := evs0 ++ [.xferCall]
            match att.xfer with
            | .raiseExn e =>
              .finish "fail" 0
                (some [identifier, "FAIL",
                       "exception: " ++ e.name ++ ": " ++ strTake e.msg 500, page, ""])
                .exnFail evs1
            | .ret true _ => .finish "ok" (best.size.getD 0) none .okDone evs1
            | .ret false err =>
              match rate_limited_errtext err with
              | some _ =>
                if attempt = 1 then .again (evs1 ++ [.backoff])
                else
                  .finish "fail" 0
                    (some [identifier, "FAIL", "aria2_error: " ++ strTake err 500, page, url])
                    .xferFail evs1
              | none =>
                .finish "fail" 0
                  (some [identifier, "FAIL", "aria2_error: " ++ strTake err 500, page, url])
                  .xferFail evs1

/-- The observable outcome of one completed `process_identifier` run: the
returned metrics dict's `status` and `bytes` fields (the returned dict carries
no `reason` key), the log rows written, the event trace, and which return
fired.  The `seconds` field is wall-clock timing and is not modelled. -/
structure RunOut where
  status : String
  bytes : Int
  logs : List LogRow
  trace : List Ev
  term : Terminal
deriving DecidableEq, Repr

/-- `process_identifier(identifier, out_root, log_writer, media_mode, aria_x,
aria_s)` from src/worker.py.  The jitter sleep (line 87) precedes the
`try` block, so an exception there propagates (`.error`); the attempt loop
allows one retry, and its unreachable fall-through (line 201) returns the
final `fail` dict. -/
def process_identifier (identifier media_mode : String) (env : Env) :
    Except Exn RunOut :=
  match env.jitterExn with
  | some e => .error e
  | none =>
    match attemptStep identifier media_mode env.att1 1 with
    | .finish st b row t evs => .ok ⟨st, b, row.toList, evs, t⟩
    | .again evs1 =>
      match attemptStep identifier media_mode env.att2 2 with
      | .finish st b row t evs2 => .ok ⟨st, b, row.toList, evs1 ++ evs2, t⟩
      | .again evs2 => .ok ⟨"fail", 0, [], evs1 ++ evs2, .fallthrough⟩

instance : DecidableEq (Except Exn RunOut) := fun a b =>
  match a, b with
  | .ok x, .ok y => if h : x = y then isTrue (by rw [h]) else isFalse (by simp [h])
  | .error x, .error y => if h : x = y then isTrue (by rw [h]) else isFalse (by simp [h])
  | .ok _, .error _ => isFalse (by simp)
  | .error _, .ok _ => isFalse (by simp)

/-- Event trace of a run (`[]` when the run raised). -/
def traceOf (r : Except Exn RunOut) : List Ev :=
  match r with
  | .error _ => []
  | .ok o => o.trace

/-- Status of a completed run (`"raised"` when the run raised). -/
def statusOf (r : Except Exn RunOut) : String :=
  match r with
  | .error _ => "raised"
  | .ok o => o.status

/-- Log rows of a run (`[]` when the run raised). -/
def logsOf (r : Except Exn RunOut) : List LogRow :=
  match r with
  | .error _ => []
  | .ok o => o.logs

/-! ## Gate-discipline trace predicates (for the claims about when
`wait_if_needed` precedes external actions) -/

/-- `true` iff every occurrence of `target` in the trace is immediately
preceded by a `gateWait` event; `prev` is the event just before the remaining
trace. -/
def immediatelyGated (target : Ev) : Option Ev → List Ev → Bool
  | _, [] => true
  | prev, e :: rest =>
    (e != target || prev == some Ev.gateWait) && immediatelyGated target (some e) rest

/-- `true` iff every `xferCall` in the trace has some earlier `gateWait`;
`seen` records whether a `gateWait` has occurred already. -/
def xferGatedSomewhere (seen : Bool) : List Ev → Bool
  | [] => true
  | e :: rest =>
    (e != Ev.xferCall || seen) && xferGatedSomewhere (seen || e == Ev.gateWait) rest

/-! ## Scheduler (src/scheduler.py, schedule_fixed)

The scheduler seeds `min(workers, total)` tasks, then, as each task
completes, processes the completion and (iff the disk-full flag is still
unset) replaces it with a task for the next identifier.  A state records the
not-yet-started identifiers, the size of the `running` set, the completion
counters and the `disk_full` flag; one `schedStep` is the body of the
`for task in done:` loop for one completed task. -/

/-- What the scheduler reads off a completed task's result dict:
`result.get("status")` and `result.get("reason")` (absent keys give `None`;
the worker's dicts carry no `reason` key, so for them the second field is
`none`). -/
structure SchedResult where
  status : Option String
  reason : Option String
deriving DecidableEq, Repr

/-- The test at src/scheduler.py line 110:
`result.get("status") == "skip" and result.get("reason") == "insufficient_disk_space"`. -/
def isDiskSkip (r : SchedResult) : Bool :=
  r.status == some "skip" && r.reason == some "insufficient_disk_space"

/-- Scheduler state: identifiers not yet handed to a task, size of the
`running` set, completed count, disk-space-skip count, and the `disk_full`
admission flag. -/
structure SchedState where
  pending : List String
  running : Nat
  doneCnt : Nat
  diskSkips : Nat
  diskFull : Bool
deriving DecidableEq, Repr

/-- The seeding loop (src/scheduler.py lines 87-95): start `min(workers, total)`
tasks, leaving the rest pending. -/
def initSched (ids : List String) (workers : Nat) : SchedState :=
  { pending := ids.drop (min workers ids.length)
    running := min workers ids.length
    doneCnt := 0
    diskSkips := 0
    diskFull := false }

/-- The body of `for task in done:` (src/scheduler.py lines 104-129) for one
completed task: count it, update the disk flag, and start a replacement task
only if the flag is unset and identifiers remain. -/
def schedStep (s : SchedState) (r : SchedResult) : SchedState :=
  let dskip := isDiskSkip r
  let doneCnt := s.doneCnt + 1
  let diskSkips := if dskip then s.diskSkips + 1 else s.diskSkips
  let diskFull := s.diskFull || dskip
  let rc := s.running - 1
  if diskFull then
    { pending := s.pending, running := rc, doneCnt := doneCnt,
      diskSkips := diskSkips, diskFull := diskFull }
  else
    match s.pending with
    | [] =>
      { pending := [], running := rc, doneCnt := doneCnt,
        diskSkips := diskSkips, diskFull := diskFull }
    | _ :: rest =>
      { pending := rest, running := rc + 1, doneCnt := doneCnt,
        diskSkips := diskSkips, diskFull := diskFull }

/-- The scheduler state after seeding and then processing the completions
`rs` in order. -/
def schedRun (ids : List String) (workers : Nat) (rs : List SchedResult) :
    SchedState :=
  rs.foldl schedStep (initSched ids workers)

/-! ## Auxiliary predicates and concrete environments used by the theorems -/

/-- Whether an attempt outcome is the `continue` branch of the retry loop. -/
def isAgain : AttemptRes → Bool
  | .again _ => true
  | .finish .. => false

/-- Well-formedness of one attempt's event list: at most one metadata fetch,
at most one transfer call, the attempt opens with a gate wait, every metadata
fetch is immediately preceded by a gate wait, and every transfer call has an
earlier gate wait. -/
def evsOK (evs : List Ev) : Prop :=
  evs.count Ev.metaFetch ≤ 1 ∧
  evs.count Ev.xferCall ≤ 1 ∧
  (∃ tl, evs = Ev.gateWait :: tl) ∧
  (∀ prev, immediatelyGated Ev.metaFetch prev evs = true) ∧
  (∀ seen, xferGatedSomewhere seen evs = true)

/-- Invariant of one attempt outcome: a terminal attempt writes exactly one
log row unless it succeeded or skipped on a present local copy, every row has
the five fields and opens with the identifier, and the events are well
formed; a `continue` outcome recorded a `backoff`, has well-formed events,
and can only arise on attempt 1. -/
def attemptOK (identifier : String) (k : Nat) : AttemptRes → Prop
  | .finish st _ row t evs =>
    (row.toList.length = if st = "ok" ∨ t = Terminal.localSkip then 0 else 1) ∧
    (∀ r ∈ row.toList, r.length = 5 ∧ r.head? = some identifier) ∧
    evsOK evs
  | .again evs => Ev.backoff ∈ evs ∧ evsOK evs ∧ k = 1

/-- A benign attempt environment: gate OK, metadata listing one video file,
no local copy, transfer succeeds. -/
def attOk : AttemptEnv :=
  { gateExn := none
    meta := .ok [⟨some "v.mp4", some "777", none⟩]
    localF := ⟨false, .err⟩
    xfer := .ret true "" }

/-- Like `attOk` but the transfer fails with throttling text. -/
def attXfer429 : AttemptEnv :=
  { attOk with xfer := .ret false "HTTP 429 Too Many Requests" }

/-- Like `attOk` but the metadata fetch raises HTTP 429. -/
def attMeta429 : AttemptEnv :=
  { attOk with meta := .raiseHttp 429 none }

/-- Like `attOk` but a local copy of exactly the expected 777 bytes exists. -/
def attLocalHit : AttemptEnv :=
  { attOk with localF := ⟨true, .ok 777⟩ }

/-- The completed run of identifier `w8` in an environment where both
attempts' transfers fail with throttling text: a terminal `fail` with one
`aria2_error` log row. -/
def runW8 : RunOut :=
  { status := "fail"
    bytes := 0
    logs := [["w8", "FAIL", "aria2_error: HTTP 429 Too Many Requests",
              "https://archive.org/details/w8", "https://archive.org/download/w8/v.mp4"]]
    trace := [Ev.gateWait, Ev.gateWait, Ev.metaFetch, Ev.xferCall, Ev.backoff,
              Ev.gateWait, Ev.gateWait, Ev.metaFetch, Ev.xferCall]
    term := Terminal.xferFail }

/-! ## Helper lemmas -/

lemma backoffStep_le (u : ℚ) (req : ℚ × ℚ) : u ≤ backoffStep u req :=
  le_max_left _ _

lemma rateGateRun_cons (init : ℚ) (r : ℚ × ℚ) (rs : List (ℚ × ℚ)) :
    rateGateRun init (r :: rs) = rateGateRun (backoffStep init r) rs := rfl

lemma le_rateGateRun (reqs : List (ℚ × ℚ)) : ∀ init : ℚ, init ≤ rateGateRun init reqs := by
  induction reqs with
  | nil => intro init; exact le_refl _
  | cons r rs ih =>
    intro init
    exact le_trans (backoffStep_le init r) (ih (backoffStep init r))

lemma rateGateRun_append (init : ℚ) (reqs more : List (ℚ × ℚ)) :
    rateGateRun init (reqs ++ more) = rateGateRun (rateGateRun init reqs) more := by
  simp [rateGateRun, List.foldl_append]

lemma rateGateRun_eq_foldl_max (reqs : List (ℚ × ℚ)) : ∀ init : ℚ,
    rateGateRun init reqs = (reqs.map (fun r => r.1 + r.2)).foldl max init := by
  induction reqs with
  | nil => intro init; rfl
  | cons r rs ih => intro init; simpa [rateGateRun_cons] using ih (backoffStep init r)

lemma schedStep_inv (W : Nat) (hW : 1 ≤ W) (s : SchedState) (r : SchedResult)
    (h1 : s.running ≤ W) (h2 : s.diskFull = false → s.pending ≠ [] → s.running = W) :
    (schedStep s r).running ≤ W ∧
      ((schedStep s r).diskFull = false → (schedStep s r).pending ≠ [] →
        (schedStep s r).running = W) := by
  rcases s with ⟨pending, running, doneCnt, diskSkips, diskFull⟩
  simp only [schedStep]
  cases diskFull <;> cases hds : isDiskSkip r <;> cases pending <;> simp_all <;> omega

lemma initSched_inv (W : Nat) (ids : List String) :
    (initSched ids W).running ≤ W ∧
      ((initSched ids W).diskFull = false → (initSched ids W).pending ≠ [] →
        (initSched ids W).running = W) := by
  constructor
  · exact Nat.min_le_left _ _
  · intro _ hp
    simp only [initSched] at hp ⊢
    have hlt : min W ids.length < ids.length := by
      by_contra hcon
      push_neg at hcon
      exact hp (List.drop_eq_nil_of_le hcon)
    rcases Nat.le_total W ids.length with h | h
    · exact Nat.min_eq_left h
    · exfalso
      rw [Nat.min_eq_right h] at hlt
      omega

lemma schedFold_inv (W : Nat) (hW : 1 ≤ W) (rs : List SchedResult) :
    ∀ s : SchedState, s.running ≤ W →
      (s.diskFull = false → s.pending ≠ [] → s.running = W) →
      ((rs.foldl schedStep s).running ≤ W ∧
        ((rs.foldl schedStep s).diskFull = false → (rs.foldl schedStep s).pending ≠ [] →
          (rs.foldl schedStep s).running = W)) := by
  induction rs with
  | nil => intro s h1 h2; exact ⟨h1, h2⟩
  | cons r rs ih =>
    intro s h1 h2
    have := schedStep_inv W hW s r h1 h2
    exact ih (schedStep s r) this.1 this.2

lemma schedFold_diskFull (rs : List SchedResult) : ∀ s : SchedState,
    (rs.foldl schedStep s).diskFull = (s.diskFull || rs.any isDiskSkip) := by
  induction rs with
  | nil => intro s; simp
  | cons r rs ih =>
    intro s
    have hstep : (schedStep s r).diskFull = (s.diskFull || isDiskSkip r) := by
      rcases s with ⟨pending, running, doneCnt, diskSkips, diskFull⟩
      simp only [schedStep]
      cases diskFull <;> cases hds : isDiskSkip r <;> cases pending <;> simp_all
    simp [List.foldl_cons, ih (schedStep s r), hstep, Bool.or_assoc]

lemma filter_isEmpty_eq_not_any (p : Cand → Bool) (l : List Cand) :
    (l.filter p).isEmpty = !l.any p := by
  induction l with
  | nil => rfl
  | cons a t ih => cases hp : p a <;> simp [List.filter_cons, hp, ih]

lemma audioScan_eq_find (audios : List Cand) : ∀ prefs : List String,
    audioScan audios prefs =
      (match prefs.find? (fun e => audios.any (fun a => a.ext = e)) with
       | some e => pyMaxBy sizeKey (audios.filter (fun a => a.ext = e))
       | none => pyMaxBy sizeKey audios) := by
  intro prefs
  induction prefs with
  | nil => rfl
  | cons e rest ih =>
    simp only [audioScan]
    rw [filter_isEmpty_eq_not_any]
    cases h : audios.any (fun a => a.ext = e) <;> simp [List.find?_cons, h, ih]

lemma audioScan_eq_spec (audios : List Cand) :
    audioScan audios AUDIO_PREFS = audioChoiceFromSpec audios :=
  audioScan_eq_find audios AUDIO_PREFS

lemma str_fail_ne_ok : ("fail" : String) ≠ "ok" := by decide

lemma str_skip_ne_ok : ("skip" : String) ≠ "ok" := by decide

lemma attemptStep_ok (identifier media_mode : String) (att : AttemptEnv) (k : Nat) :
    attemptOK identifier k (attemptStep identifier media_mode att k) := by
  obtain ⟨gateExn, meta, localF, xfer⟩ := att
  cases gateExn with
  | some e =>
    simp [attemptStep, attemptOK, evsOK, immediatelyGated, xferGatedSomewhere,
      str_fail_ne_ok]
  | none =>
    cases meta with
    | raiseHttp code ra =>
      by_cases hc : code = 429 ∨ code = 503
      · by_cases hk : k = 1 <;>
          simp [attemptStep, iaMetadataEvs, hc, hk, attemptOK, evsOK, immediatelyGated,
            xferGatedSomewhere, List.count_cons, str_fail_ne_ok]
      · simp [attemptStep, iaMetadataEvs, hc, attemptOK, evsOK, immediatelyGated,
          xferGatedSomewhere, List.count_cons, str_fail_ne_ok]
    | raiseExn e =>
      simp [attemptStep, iaMetadataEvs, attemptOK, evsOK, immediatelyGated,
        xferGatedSomewhere, List.count_cons, str_fail_ne_ok]
    | ok files =>
      cases hfe : files.isEmpty with
      | true =>
        simp [attemptStep, iaMetadataEvs, hfe, attemptOK, evsOK, immediatelyGated,
          xferGatedSomewhere, List.count_cons, str_skip_ne_ok]
      | false =>
        rcases hpick : pick_best_file files media_mode with ⟨bo, r⟩
        cases bo with
        | none =>
          simp [attemptStep, iaMetadataEvs, hfe, hpick, attemptOK, evsOK,
            immediatelyGated, xferGatedSomewhere, List.count_cons, str_skip_ne_ok]
        | some best =>
          cases hloc : local_already_ok localF best.size with
          | true =>
            simp [attemptStep, iaMetadataEvs, hfe, hpick, hloc, attemptOK, evsOK,
              immediatelyGated, xferGatedSomewhere, List.count_cons, str_skip_ne_ok]
          | false =>
            cases xfer with
            | raiseExn e =>
              simp [attemptStep, iaMetadataEvs, hfe, hpick, hloc, attemptOK, evsOK,
                immediatelyGated, xferGatedSomewhere, List.count_cons, str_fail_ne_ok]
            | ret ok err =>
              cases ok with
              | true =>
                simp [attemptStep, iaMetadataEvs, hfe, hpick, hloc, attemptOK, evsOK,
                  immediatelyGated, xferGatedSomewhere, List.count_cons]
              | false =>
                rcases hrl : rate_limited_errtext err with _ | v
                · simp [attemptStep, iaMetadataEvs, hfe, hpick, hloc, hrl, attemptOK,
                    evsOK, immediatelyGated, xferGatedSomewhere, List.count_cons,
                    str_fail_ne_ok]
                · by_cases hk : k = 1 <;>
                    simp [attemptStep, iaMetadataEvs, hfe, hpick, hloc, hrl, hk,
                      attemptOK, evsOK, immediatelyGated, xferGatedSomewhere,
                      List.count_cons, str_fail_ne_ok]

lemma immediatelyGated_append {t : Ev} {l1 l2 : List Ev} {p : Option Ev}
    (h1 : immediatelyGated t p l1 = true) (h2 : ∀ q, immediatelyGated t q l2 = true) :
    immediatelyGated t p (l1 ++ l2) = true := by
  induction l1 generalizing p with
  | nil => simpa using h2 p
  | cons a l ih =>
    simp only [List.cons_append, immediatelyGated, Bool.and_eq_true] at h1 ⊢
    exact ⟨h1.1, ih h1.2⟩

lemma xferGatedSomewhere_append {l1 l2 : List Ev} {s : Bool}
    (h1 : xferGatedSomewhere s l1 = true) (h2 : ∀ s2, xferGatedSomewhere s2 l2 = true) :
    xferGatedSomewhere s (l1 ++ l2) = true := by
  induction l1 generalizing s with
  | nil => simpa using h2 s
  | cons a l ih =>
    simp only [List.cons_append, xferGatedSomewhere, Bool.and_eq_true] at h1 ⊢
    exact ⟨h1.1, ih h1.2⟩

/-! ## Claim theorems -/

/-- C1: across any sequence of `RateGate.backoff` calls, each atomic under the
lock and setting `_until = max(_until, now + seconds)`, the deadline never
decreases — a later call with a smaller `seconds` value cannot shrink it —
and the final deadline is the maximum of the initial deadline and every
requested `now + seconds`, so concurrent callers converge to the
latest-expiring request. -/
theorem C1_rategate_deadline_monotone :
    (∀ (u : ℚ) (req : ℚ × ℚ), u ≤ backoffStep u req) ∧
    (∀ (init : ℚ) (reqs more : List (ℚ × ℚ)),
      rateGateRun init reqs ≤ rateGateRun init (reqs ++ more)) ∧
    (∀ (init : ℚ) (reqs : List (ℚ × ℚ)),
      rateGateRun init reqs = (reqs.map (fun r => r.1 + r.2)).foldl max init) := by
  refine ⟨backoffStep_le, ?_, fun init reqs => rateGateRun_eq_foldl_max reqs init⟩
  intro init reqs more
  rw [rateGateRun_append]
  exact le_rateGateRun more _

/-- C2: with a positive workers bound `W`, after any sequence of task
completions the scheduler has at most `W` tasks in flight, and, while the
disk-full admission flag is unset, at least `min(W, remaining work)` in
flight, where remaining work counts in-flight tasks plus pending
identifiers. -/
theorem C2_scheduler_concurrency_bound (W : Nat) (hW : 1 ≤ W)
    (ids : List String) (rs : List SchedResult) :
    (schedRun ids W rs).running ≤ W ∧
    ((schedRun ids W rs).diskFull = false →
      min W ((schedRun ids W rs).running + (schedRun ids W rs).pending.length)
        ≤ (schedRun ids W rs).running) := by
  have hinit := initSched_inv W ids
  have h : (schedRun ids W rs).running ≤ W ∧
      ((schedRun ids W rs).diskFull = false → (schedRun ids W rs).pending ≠ [] →
        (schedRun ids W rs).running = W) :=
    schedFold_inv W hW rs (initSched ids W) hinit.1 hinit.2
  refine ⟨h.1, fun hdf => ?_⟩
  rcases hpe : (schedRun ids W rs).pending with _ | ⟨x, xs⟩
  · simp only [hpe, List.length_nil, Nat.add_zero]
    exact Nat.min_le_right W (schedRun ids W rs).running
  · have heq := h.2 hdf (by simp [hpe])
    rw [heq]
    exact Nat.min_le_left _ _

theorem C2_scheduler_concurrency_bound_witness :
    (schedRun ["a", "b", "c"] 2 [⟨some "ok", none⟩]).running ≤ 2 ∧
    ((schedRun ["a", "b", "c"] 2 [⟨some "ok", none⟩]).diskFull = false →
      min 2 ((schedRun ["a", "b", "c"] 2 [⟨some "ok", none⟩]).running +
        (schedRun ["a", "b", "c"] 2 [⟨some "ok", none⟩]).pending.length)
        ≤ (schedRun ["a", "b", "c"] 2 [⟨some "ok", none⟩]).running) :=
  C2_scheduler_concurrency_bound 2 (by decide) ["a", "b", "c"] [⟨some "ok", none⟩]

/-- C3: the disk-full admission flag is one-way — once set, every later
completion keeps it set, starts no new task (pending unchanged, running only
decremented) while still counting the completed task — and over a whole run
the flag is set exactly when some completed result reported status `skip`
with reason `insufficient_disk_space`. -/
theorem C3_admission_closes_once :
    (∀ (s : SchedState) (r : SchedResult), s.diskFull = true →
      (schedStep s r).diskFull = true ∧ (schedStep s r).pending = s.pending ∧
      (schedStep s r).running = s.running - 1 ∧ (schedStep s r).doneCnt = s.doneCnt + 1) ∧
    (∀ (ids : List String) (W : Nat) (rs : List SchedResult),
      ((schedRun ids W rs).diskFull = true ↔ ∃ r ∈ rs, isDiskSkip r = true)) := by
  constructor
  · intro s r hdf
    rcases s with ⟨pending, running, doneCnt, diskSkips, diskFull⟩
    simp only at hdf
    subst hdf
    simp [schedStep]
  · intro ids W rs
    rw [show (schedRun ids W rs).diskFull = ((initSched ids W).diskFull || rs.any isDiskSkip)
          from schedFold_diskFull rs (initSched ids W)]
    simp [initSched, List.any_eq_true]

theorem C3_admission_closes_once_witness :
    ((schedStep ⟨["x"], 2, 0, 0, true⟩ ⟨some "ok", none⟩).diskFull = true ∧
      (schedStep ⟨["x"], 2, 0, 0, true⟩ ⟨some "ok", none⟩).pending = ["x"] ∧
      (schedStep ⟨["x"], 2, 0, 0, true⟩ ⟨some "ok", none⟩).running = 1 ∧
      (schedStep ⟨["x"], 2, 0, 0, true⟩ ⟨some "ok", none⟩).doneCnt = 1) ∧
    (schedRun ["a"] 1 [⟨some "skip", some "insufficient_disk_space"⟩]).diskFull = true := by
  constructor
  · exact C3_admission_closes_once.1 ⟨["x"], 2, 0, 0, true⟩ ⟨some "ok", none⟩ rfl
  · exact (C3_admission_closes_once.2 ["a"] 1
      [⟨some "skip", some "insufficient_disk_space"⟩]).mpr
      ⟨⟨some "skip", some "insufficient_disk_space"⟩, by simp, by decide⟩

/-- C5: in audio mode (and the audio fallback of both mode) with a non-empty
audio candidate set, `pick_best_file` returns exactly the choice described by
the spec: the largest candidate (absent size as 0, ties to the first
encountered) of the first extension in `AUDIO_PREFS` that has a candidate,
falling back to the largest audio candidate only when no preferred extension
matches; concretely, a 100-byte `.flac` beats a 900-byte `.mp3`. -/
theorem C5_audio_preference_over_size :
    (∀ files : List RawFile,
      (candsOf files).filter (fun c => c.ext ∈ AUDIO_EXTS) ≠ [] →
      pick_best_file files "audio"
        = (audioChoiceFromSpec ((candsOf files).filter (fun c => c.ext ∈ AUDIO_EXTS)),
           none)) ∧
    (∀ files : List RawFile,
      (candsOf files).filter (fun c => c.ext ∈ VIDEO_EXTS) = [] →
      (candsOf files).filter (fun c => c.ext ∈ AUDIO_EXTS) ≠ [] →
      pick_best_file files "both"
        = (audioChoiceFromSpec ((candsOf files).filter (fun c => c.ext ∈ AUDIO_EXTS)),
           none)) ∧
    pick_best_file
      [⟨some "a.mp3", some "900", none⟩, ⟨some "b.flac", some "100", none⟩] "audio"
      = (some ⟨"b.flac", ".flac", some 100, none⟩, none) := by
  refine ⟨?_, ?_, by decide⟩
  · intro files h
    have hc : (candsOf files).isEmpty = false := by
      cases hcc : candsOf files with
      | nil => exact absurd (by simp [hcc]) h
      | cons a t => rfl
    have ha : ((candsOf files).filter (fun c => c.ext ∈ AUDIO_EXTS)).isEmpty = false := by
      cases haa : (candsOf files).filter (fun c => c.ext ∈ AUDIO_EXTS) with
      | nil => exact absurd haa h
      | cons a t => rfl
    simp only [pick_best_file, hc, ha, audioScan_eq_spec]
    norm_num
    intro hx
    exact absurd hx (by decide)
  · intro files hv h
    have hc : (candsOf files).isEmpty = false := by
      cases hcc : candsOf files with
      | nil => exact absurd (by simp [hcc]) h
      | cons a t => rfl
    have ha : ((candsOf files).filter (fun c => c.ext ∈ AUDIO_EXTS)).isEmpty = false := by
      cases haa : (candsOf files).filter (fun c => c.ext ∈ AUDIO_EXTS) with
      | nil => exact absurd haa h
      | cons a t => rfl
    simp only [pick_best_file, hc, ha, hv, audioScan_eq_spec]
    norm_num
    intro hx
    exact absurd hx (by decide)

theorem C5_audio_preference_over_size_witness :
    pick_best_file [⟨some "x.aac", some "70", none⟩, ⟨some "y.m4a", some "50", none⟩]
        "audio"
      = (audioChoiceFromSpec
          ((candsOf [⟨some "x.aac", some "70", none⟩, ⟨some "y.m4a", some "50", none⟩]).filter
            (fun c => c.ext ∈ AUDIO_EXTS)), none) :=
  C5_audio_preference_over_size.1
    [⟨some "x.aac", some "70", none⟩, ⟨some "y.m4a", some "50", none⟩] (by decide)

/-- C4: one `process_identifier` run makes at most two attempts, hence at
most 2 metadata fetches and at most 2 transfer invocations; attempt 2 never
continues the loop (any throttling there is terminal); and a throttling
signal on attempt 1 records a `RateGate.backoff` and loops back exactly once
to a second attempt, which opens with a gate wait. -/
theorem C4_retry_ceiling_two_attempts :
    (∀ (identifier media_mode : String) (env : Env),
      (traceOf (process_identifier identifier media_mode env)).count Ev.metaFetch ≤ 2 ∧
      (traceOf (process_identifier identifier media_mode env)).count Ev.xferCall ≤ 2) ∧
    (∀ (identifier media_mode : String) (att : AttemptEnv),
      isAgain (attemptStep identifier media_mode att 2) = false) ∧
    (∀ (identifier media_mode : String) (env : Env) (evs1 : List Ev),
      env.jitterExn = none →
      attemptStep identifier media_mode env.att1 1 = .again evs1 →
      Ev.backoff ∈ evs1 ∧
      traceOf (process_identifier identifier media_mode env)
        = evs1 ++ attEvs (attemptStep identifier media_mode env.att2 2) ∧
      (∃ tl, attEvs (attemptStep identifier media_mode env.att2 2) = Ev.gateWait :: tl)) := by
  refine ⟨?_, ?_, ?_⟩
  · intro identifier media_mode env
    cases hjit : env.jitterExn with
    | some e => simp [process_identifier, hjit, traceOf]
    | none =>
      have h1 := attemptStep_ok identifier media_mode env.att1 1
      rcases hs1 : attemptStep identifier media_mode env.att1 1 with ⟨st, b, row, t, evs⟩ | evs1
      · rw [hs1] at h1
        have htr : traceOf (process_identifier identifier media_mode env) = evs := by
          simp [process_identifier, hjit, hs1, traceOf]
        rw [htr]
        obtain ⟨-, -, hm, hx, -⟩ := h1
        omega
      · rw [hs1] at h1
        obtain ⟨-, ⟨hm1, hx1, -⟩, -⟩ := h1
        have h2 := attemptStep_ok identifier media_mode env.att2 2
        rcases hs2 : attemptStep identifier media_mode env.att2 2 with
            ⟨st2, b2, row2, t2, evs2⟩ | evs2
        · rw [hs2] at h2
          obtain ⟨-, -, hm2, hx2, -⟩ := h2
          have htr : traceOf (process_identifier identifier media_mode env)
              = evs1 ++ evs2 := by
            simp [process_identifier, hjit, hs1, hs2, traceOf]
          rw [htr]
          constructor <;> rw [List.count_append] <;> omega
        · rw [hs2] at h2
          exact absurd h2.2.2 (by decide)
  · intro identifier media_mode att
    have h := attemptStep_ok identifier media_mode att 2
    rcases hs : attemptStep identifier media_mode att 2 with ⟨st, b, row, t, evs⟩ | evs
    · rfl
    · rw [hs] at h
      exact absurd h.2.2 (by decide)
  · intro identifier media_mode env evs1 hjit hs1
    have h1 := attemptStep_ok identifier media_mode env.att1 1
    rw [hs1] at h1
    obtain ⟨hback, -, -⟩ := h1
    have h2 := attemptStep_ok identifier media_mode env.att2 2
    rcases hs2 : attemptStep identifier media_mode env.att2 2 with
        ⟨st2, b2, row2, t2, evs2⟩ | evs2
    · rw [hs2] at h2
      obtain ⟨-, -, -, -, hhead, -⟩ := h2
      refine ⟨hback, ?_, ?_⟩
      · simp [process_identifier, hjit, hs1, hs2, traceOf, attEvs]
      · exact hhead
    · rw [hs2] at h2
      exact absurd h2.2.2 (by decide)

theorem C4_retry_ceiling_two_attempts_witness :
    Ev.backoff ∈ attEvs (attemptStep "w4" "video" attXfer429 1) ∧
    traceOf (process_identifier "w4" "video" ⟨none, attXfer429, attOk⟩)
      = attEvs (attemptStep "w4" "video" attXfer429 1) ++
        attEvs (attemptStep "w4" "video" attOk 2) ∧
    (∃ tl, attEvs (attemptStep "w4" "video" attOk 2) = Ev.gateWait :: tl) :=
  C4_retry_ceiling_two_attempts.2.2 "w4" "video" ⟨none, attXfer429, attOk⟩
    (attEvs (attemptStep "w4" "video" attXfer429 1)) rfl (by decide)

/-- C6: when the selected candidate has a known size and a local file of
exactly that size exists at the destination, the run terminates as a `skip`
whose trace contains no transfer call and which writes no log row; an absent
candidate size makes `local_already_ok` return false, and in that case the
attempt always reaches the transfer invocation. -/
theorem C6_local_copy_short_circuit :
    (∀ (identifier media_mode : String) (env : Env) (files : List RawFile)
        (best : Cand) (r : Option String) (n : Int),
      env.jitterExn = none → env.att1.gateExn = none → env.att1.meta = .ok files →
      files ≠ [] → pick_best_file files media_mode = (some best, r) →
      best.size = some n → env.att1.localF.present = true →
      env.att1.localF.stat = .ok n →
      process_identifier identifier media_mode env
        = .ok ⟨"skip", 0, [], [Ev.gateWait, Ev.gateWait, Ev.metaFetch],
               Terminal.localSkip⟩) ∧
    (∀ target : LocalFile, local_already_ok target none = false) ∧
    (∀ (identifier media_mode : String) (att : AttemptEnv) (k : Nat)
        (files : List RawFile) (best : Cand) (r : Option String),
      att.gateExn = none → att.meta = .ok files → files ≠ [] →
      pick_best_file files media_mode = (some best, r) → best.size = none →
      Ev.xferCall ∈ attEvs (attemptStep identifier media_mode att k)) := by
  refine ⟨?_, ?_, ?_⟩
  · intro identifier media_mode env files best r n hjit hgate hmeta hne hpick hsize hpres hstat
    have hfe : files.isEmpty = false := by
      cases files with
      | nil => exact absurd rfl hne
      | cons a t => rfl
    have hloc : local_already_ok env.att1.localF best.size = true := by
      rw [hsize]
      simp [local_already_ok, hpres, hstat]
    simp [process_identifier, hjit, attemptStep, hgate, hmeta, iaMetadataEvs, hfe,
      hpick, hloc]
  · intro target
    rcases target with ⟨p, st⟩
    cases p <;> rfl
  · intro identifier media_mode att k files best r hgate hmeta hne hpick hsize
    have hfe : files.isEmpty = false := by
      cases files with
      | nil => exact absurd rfl hne
      | cons a t => rfl
    have hloc : local_already_ok att.localF best.size = false := by
      rw [hsize]
      rcases hl : att.localF with ⟨p, st⟩
      cases p <;> rfl
    cases hxf : att.xfer with
    | raiseExn e =>
      simp [attemptStep, hgate, hmeta, iaMetadataEvs, hfe, hpick, hloc, hxf, attEvs]
    | ret ok err =>
      cases ok with
      | true =>
        simp [attemptStep, hgate, hmeta, iaMetadataEvs, hfe, hpick, hloc, hxf, attEvs]
      | false =>
        rcases hrl : rate_limited_errtext err with _ | v
        · simp [attemptStep, hgate, hmeta, iaMetadataEvs, hfe, hpick, hloc, hxf, hrl,
            attEvs]
        · by_cases hk : k = 1 <;>
            simp [attemptStep, hgate, hmeta, iaMetadataEvs, hfe, hpick, hloc, hxf, hrl,
              hk, attEvs]

theorem C6_local_copy_short_circuit_witness :
    process_identifier "w6" "video" ⟨none, attLocalHit, attLocalHit⟩
      = .ok ⟨"skip", 0, [], [Ev.gateWait, Ev.gateWait, Ev.metaFetch],
             Terminal.localSkip⟩ :=
  C6_local_copy_short_circuit.1 "w6" "video" ⟨none, attLocalHit, attLocalHit⟩
    [⟨some "v.mp4", some "777", none⟩] ⟨"v.mp4", ".mp4", some 777, none⟩ none 777
    rfl rfl rfl (by decide) (by decide) rfl rfl rfl

/-- C7 (amended): every exception raised inside the attempt loop — gate
wait, metadata fetch, selection, local check or transfer — is absorbed and
converted into a terminal result, so whenever the jitter sleep does not
raise, `process_identifier` returns a result value; the jitter stage itself,
however, precedes the `try` block. -/
theorem C7_exceptions_absorbed_inside_loop :
    ∀ (identifier media_mode : String) (env : Env),
      env.jitterExn = none →
      ∃ out : RunOut, process_identifier identifier media_mode env = .ok out := by
  intro identifier media_mode env hjit
  simp only [process_identifier, hjit]
  rcases hs1 : attemptStep identifier media_mode env.att1 1 with ⟨st, b, row, t, evs⟩ | evs1
  · exact ⟨_, rfl⟩
  · rcases hs2 : attemptStep identifier media_mode env.att2 2 with
        ⟨st2, b2, row2, t2, evs2⟩ | evs2
    · exact ⟨_, rfl⟩
    · exact ⟨_, rfl⟩

/-- C7 counterexample: an exception raised at the jitter stage (which the
source places before the `try` of the attempt loop) propagates out of
`process_identifier` instead of being converted into a `fail` result. -/
theorem C7_jitter_exception_escapes :
    process_identifier "item-c7" "video"
      ⟨some ⟨"OSError", "jitter interrupted"⟩, attOk, attOk⟩
      = .error ⟨"OSError", "jitter interrupted"⟩ := rfl

theorem C7_exceptions_absorbed_inside_loop_witness :
    ∃ out : RunOut, process_identifier "w7" "video" ⟨none, attOk, attOk⟩ = .ok out :=
  C7_exceptions_absorbed_inside_loop "w7" "video" ⟨none, attOk, attOk⟩ rfl

/-- C8 (amended): a completed run writes exactly one structured log row when
it ends in `skip` or `fail`, except the local-copy-already-present skip,
which writes none; successful runs write none; and every row written has the
five fields and opens with the identifier. -/
theorem C8_skip_fail_logged_except_local_skip :
    ∀ (identifier media_mode : String) (env : Env) (out : RunOut),
      process_identifier identifier media_mode env = .ok out →
      (out.logs.length
        = if out.status = "ok" ∨ out.term = Terminal.localSkip then 0 else 1) ∧
      (∀ row ∈ out.logs, row.length = 5 ∧ row.head? = some identifier) := by
  intro identifier media_mode env out hrun
  cases hjit : env.jitterExn with
  | some e => simp [process_identifier, hjit] at hrun
  | none =>
    simp only [process_identifier, hjit] at hrun
    have h1 := attemptStep_ok identifier media_mode env.att1 1
    rcases hs1 : attemptStep identifier media_mode env.att1 1 with ⟨st, b, row, t, evs⟩ | evs1
    · rw [hs1] at h1 hrun
      simp only [Except.ok.injEq] at hrun
      subst hrun
      exact ⟨h1.1, h1.2.1⟩
    · rw [hs1] at hrun
      have h2 := attemptStep_ok identifier media_mode env.att2 2
      rcases hs2 : attemptStep identifier media_mode env.att2 2 with
          ⟨st2, b2, row2, t2, evs2⟩ | evs2
      · rw [hs2] at h2 hrun
        simp only [Except.ok.injEq] at hrun
        subst hrun
        exact ⟨h2.1, h2.2.1⟩
      · rw [hs2] at h2
        exact absurd h2.2.2 (by decide)

/-- C8 counterexample: the local-copy-already-present skip terminates with
status `skip` but writes no log record, contradicting the claim that every
skip path, including this one, writes exactly one record. -/
theorem C8_local_skip_writes_no_record :
    statusOf (process_identifier "item-c8" "video" ⟨none, attLocalHit, attLocalHit⟩)
      = "skip" ∧
    logsOf (process_identifier "item-c8" "video" ⟨none, attLocalHit, attLocalHit⟩)
      = [] := by
  decide

theorem C8_skip_fail_logged_except_local_skip_witness :
    (runW8.logs.length
      = if runW8.status = "ok" ∨ runW8.term = Terminal.localSkip then 0 else 1) ∧
    (∀ row ∈ runW8.logs, row.length = 5 ∧ row.head? = some "w8") :=
  C8_skip_fail_logged_except_local_skip "w8" "video" ⟨none, attXfer429, attXfer429⟩
    runW8 (by decide)

/-- C9 (amended): in every run, each metadata fetch is immediately preceded
by a `wait_if_needed` call (the worker waits at the top of each attempt and
`ia_metadata` waits again internally), and each transfer invocation has some
earlier `wait_if_needed` in the run — but only the attempt-opening one, not
an immediately preceding one. -/
theorem C9_wait_precedes_external_actions :
    ∀ (identifier media_mode : String) (env : Env),
      immediatelyGated Ev.metaFetch none
        (traceOf (process_identifier identifier media_mode env)) = true ∧
      xferGatedSomewhere false
        (traceOf (process_identifier identifier media_mode env)) = true := by
  intro identifier media_mode env
  cases hjit : env.jitterExn with
  | some e => simp [process_identifier, hjit, traceOf, immediatelyGated, xferGatedSomewhere]
  | none =>
    have h1 := attemptStep_ok identifier media_mode env.att1 1
    rcases hs1 : attemptStep identifier media_mode env.att1 1 with ⟨st, b, row, t, evs⟩ | evs1
    · rw [hs1] at h1
      obtain ⟨-, -, -, -, -, hmg, hxg⟩ := h1
      have htr : traceOf (process_identifier identifier media_mode env) = evs := by
        simp [process_identifier, hjit, hs1, traceOf]
      rw [htr]
      exact ⟨hmg none, hxg false⟩
    · rw [hs1] at h1
      obtain ⟨-, ⟨-, -, -, hmg1, hxg1⟩, -⟩ := h1
      have h2 := attemptStep_ok identifier media_mode env.att2 2
      rcases hs2 : attemptStep identifier media_mode env.att2 2 with
          ⟨st2, b2, row2, t2, evs2⟩ | evs2
      · rw [hs2] at h2
        obtain ⟨-, -, -, -, -, hmg2, hxg2⟩ := h2
        have htr : traceOf (process_identifier identifier media_mode env)
            = evs1 ++ evs2 := by
          simp [process_identifier, hjit, hs1, hs2, traceOf]
        rw [htr]
        exact ⟨immediatelyGated_append (hmg1 none) hmg2,
               xferGatedSomewhere_append (hxg1 false) hxg2⟩
      · rw [hs2] at h2
        exact absurd h2.2.2 (by decide)

/-- C9 counterexample: in a plain successful run the transfer call is
immediately preceded by the metadata fetch, not by a `wait_if_needed` call,
so the claim that every external action is immediately preceded by a gate
wait fails at the transfer stage. -/
theorem C9_transfer_not_immediately_gated :
    immediatelyGated Ev.xferCall none
      (traceOf (process_identifier "item-c9" "video" ⟨none, attOk, attOk⟩)) = false := by
  decide

/-- C10 (amended): the retry budget is shared between the metadata and the
transfer stage — at most two attempts in total, hence at most 4 external
calls; 2 metadata fetches plus 2 transfers occur (only) when attempt 1's
transfer throttles, forcing a second metadata fetch; and after an attempt-1
retry that made no transfer call (a metadata throttle), the whole run makes
at most one transfer call — a throttled transfer on attempt 2 is terminal,
not retried. -/
theorem C10_retry_budget_shared :
    (∀ (identifier media_mode : String) (env : Env),
      (traceOf (process_identifier identifier media_mode env)).count Ev.metaFetch +
        (traceOf (process_identifier identifier media_mode env)).count Ev.xferCall ≤ 4) ∧
    (∀ (identifier media_mode : String) (env : Env) (evs1 : List Ev),
      env.jitterExn = none →
      attemptStep identifier media_mode env.att1 1 = .again evs1 →
      evs1.count Ev.xferCall = 0 →
      (traceOf (process_identifier identifier media_mode env)).count Ev.xferCall ≤ 1) ∧
    ((traceOf (process_identifier "w10" "video" ⟨none, attXfer429, attXfer429⟩)).count
        Ev.metaFetch = 2 ∧
      (traceOf (process_identifier "w10" "video" ⟨none, attXfer429, attXfer429⟩)).count
        Ev.xferCall = 2) := by
  refine ⟨?_, ?_, by decide⟩
  · intro identifier media_mode env
    cases hjit : env.jitterExn with
    | some e => simp [process_identifier, hjit, traceOf]
    | none =>
      have h1 := attemptStep_ok identifier media_mode env.att1 1
      rcases hs1 : attemptStep identifier media_mode env.att1 1 with ⟨st, b, row, t, evs⟩ | evs1
      · rw [hs1] at h1
        obtain ⟨-, -, hm, hx, -⟩ := h1
        have htr : traceOf (process_identifier identifier media_mode env) = evs := by
          simp [process_identifier, hjit, hs1, traceOf]
        rw [htr]
        omega
      · rw [hs1] at h1
        obtain ⟨-, ⟨hm1, hx1, -⟩, -⟩ := h1
        have h2 := attemptStep_ok identifier media_mode env.att2 2
        rcases hs2 : attemptStep identifier media_mode env.att2 2 with
            ⟨st2, b2, row2, t2, evs2⟩ | evs2
        · rw [hs2] at h2
          obtain ⟨-, -, hm2, hx2, -⟩ := h2
          have htr : traceOf (process_identifier identifier media_mode env)
              = evs1 ++ evs2 := by
            simp [process_identifier, hjit, hs1, hs2, traceOf]
          rw [htr]
          rw [List.count_append, List.count_append]
          omega
        · rw [hs2] at h2
          exact absurd h2.2.2 (by decide)
  · intro identifier media_mode env evs1 hjit hs1 hcnt
    have h2 := attemptStep_ok identifier media_mode env.att2 2
    rcases hs2 : attemptStep identifier media_mode env.att2 2 with
        ⟨st2, b2, row2, t2, evs2⟩ | evs2
    · rw [hs2] at h2
      obtain ⟨-, -, -, hx2, -⟩ := h2
      have htr : traceOf (process_identifier identifier media_mode env)
          = evs1 ++ evs2 := by
        simp [process_identifier, hjit, hs1, hs2, traceOf]
      rw [htr, List.count_append, hcnt]
      omega
    · rw [hs2] at h2
      exact absurd h2.2.2 (by decide)

/-- C10 counterexample: when the metadata fetch throttles on attempt 1 (one
retry consumed) and the transfer then throttles on attempt 2, the run ends
in a terminal `fail` after a single transfer invocation — the transfer stage
does not get its own retry, contradicting the claimed per-stage
independence. -/
theorem C10_no_transfer_retry_after_metadata_retry :
    statusOf (process_identifier "item-c10" "video" ⟨none, attMeta429, attXfer429⟩)
      = "fail" ∧
    (traceOf (process_identifier "item-c10" "video" ⟨none, attMeta429, attXfer429⟩)).count
      Ev.metaFetch = 2 ∧
    (traceOf (process_identifier "item-c10" "video" ⟨none, attMeta429, attXfer429⟩)).count
      Ev.xferCall = 1 := by
  decide

theorem C10_retry_budget_shared_witness :
    (traceOf (process_identifier "w10b" "video" ⟨none, attMeta429, attOk⟩)).count
      Ev.xferCall ≤ 1 :=
  C10_retry_budget_shared.2.1 "w10b" "video" ⟨none, attMeta429, attOk⟩
    [Ev.gateWait, Ev.gateWait, Ev.metaFetch, Ev.backoff, Ev.backoff] rfl (by decide)
    (by decide)

end IACG
